import Mathlib

/-!
Verification of the recipe book processor (recipe_processor.py).

Shallow-embedding conventions:
* A Python float that may be nan is modelled as an Option ℚ: none models
  float nan, some q models the defined value q; float arithmetic on the
  values occurring here is exact, so ℚ is adequate.
* A Python dict is modelled as an insertion-ordered association list
  List (String × α); dictInsert models assignment d[k] = v (an existing
  key keeps its position and gets the new value, a new key is appended),
  find? models key lookup, any models the in test.
* Python str is modelled as String; str.replace, str.lower and the
  substring test (the in operator on strings) are modelled on the
  underlying character list.
-/

namespace RecipeProc

/-- Model of Python str.lower, character by character (the keys handled by
the code are basic latin, where Char.toLower agrees with Python). -/
def strLower (s : String) : String := ⟨s.data.map Char.toLower⟩

/-- Model of the Python substring test (needle in hay) on char lists: true
iff needle occurs contiguously in hay; the empty needle always occurs. -/
def isInfixList (needle : List Char) : List Char → Bool
  | [] => needle.isEmpty
  | c :: cs => needle.isPrefixOf (c :: cs) || isInfixList needle cs

/-- The Python substring test (needle in hay) for strings. -/
def substrOf (needle hay : String) : Bool := isInfixList needle.data hay.data

/-- Core of Python str.replace with a non-empty pattern: scan left to
right, replacing non-overlapping occurrences. The Nat argument is fuel,
instantiated with the length of the scanned list (each step consumes at
least one character, so that much fuel always suffices). -/
def replaceChars (pat rep : List Char) : Nat → List Char → List Char
  | _, [] => []
  | 0, s => s
  | n+1, c :: cs =>
    if pat.isPrefixOf (c :: cs) then
      rep ++ replaceChars pat rep n ((c :: cs).drop pat.length)
    else
      c :: replaceChars pat rep n cs

/-- Model of Python str.replace. With an empty pattern Python inserts the
replacement before every character and once at the end. -/
def pyReplace (s pat rep : String) : String :=
  if pat.data.isEmpty then
    ⟨rep.data ++ s.data.foldr (fun c acc => c :: (rep.data ++ acc)) []⟩
  else
    ⟨replaceChars pat.data rep.data s.data.length s.data⟩

/-- Python d[k] = v on an insertion-ordered association list: an existing
key keeps its position and gets the new value, a new key is appended. -/
def dictInsert {α : Type} (k : String) (v : α) (d : List (String × α)) :
    List (String × α) :=
  if d.any (fun p => p.1 == k) then d.map (fun p => if p.1 == k then (k, v) else p)
  else d ++ [(k, v)]

/-- The substring condition tested by LookupMatcher.find_match for one
lookup key: key_lower in lookup_key.lower() or lookup_key.lower() in
key_lower. -/
def substrMatch (key lk : String) : Bool :=
  substrOf (strLower key) (strLower lk) || substrOf (strLower lk) (strLower key)

/-- LookupMatcher.find_match: exact (case sensitive) dict membership
first, returning the query itself; otherwise the first lookup key in dict
order related to the query by the case-insensitive substring test either
way round; none when nothing matches (the code returns None, it never
raises). -/
def find_match {α : Type} (key : String) (lookup : List (String × α)) : Option String :=
  if lookup.any (fun p => p.1 == key) then some key
  else (lookup.find? (fun p => substrMatch key p.1)).map (fun p => p.1)

/-- Tokens of the arithmetic fragment of Python expressions. -/
inductive Tok where
  | num (q : ℚ)
  | plus
  | minus
  | star
  | slash
  | lparen
  | rparen
deriving DecidableEq

/-- Value of a digit run. -/
def digitsVal (ds : List Char) : ℕ :=
  ds.foldl (fun a c => 10 * a + (c.toNat - 48)) 0

/-- Lex a Python numeric literal: digits, an optional point, digits, with
at least one digit present overall. Returns the value and the remaining
characters. -/
def lexNum (cs : List Char) : Option (ℚ × List Char) :=
  let ip := cs.takeWhile Char.isDigit
  let rest := cs.dropWhile Char.isDigit
  match rest with
  | '.' :: rest2 =>
    let fp := rest2.takeWhile Char.isDigit
    let rest3 := rest2.dropWhile Char.isDigit
    if ip.isEmpty && fp.isEmpty then none
    else some ((digitsVal ip : ℚ) + (digitsVal fp : ℚ) / ((10 : ℚ) ^ fp.length), rest3)
  | _ =>
    if ip.isEmpty then none else some ((digitsVal ip : ℚ), rest)

/-- Tokenizer for the arithmetic fragment: numbers, + - * /, parentheses
and spaces. Any other character makes the whole expression fail, which the
caller treats the way it treats a Python exception. Nat argument is fuel
(the input length suffices). -/
def tokenizeAux : Nat → List Char → Option (List Tok)
  | _, [] => some []
  | 0, _ => none
  | n+1, c :: cs =>
    if c = ' ' then tokenizeAux n cs
    else if c = '+' then (tokenizeAux n cs).map (fun ts => Tok.plus :: ts)
    else if c = '-' then (tokenizeAux n cs).map (fun ts => Tok.minus :: ts)
    else if c = '*' then (tokenizeAux n cs).map (fun ts => Tok.star :: ts)
    else if c = '/' then (tokenizeAux n cs).map (fun ts => Tok.slash :: ts)
    else if c = '(' then (tokenizeAux n cs).map (fun ts => Tok.lparen :: ts)
    else if c = ')' then (tokenizeAux n cs).map (fun ts => Tok.rparen :: ts)
    else if c.isDigit || c = '.' then
      match lexNum (c :: cs) with
      | none => none
      | some (q, rest) => (tokenizeAux n rest).map (fun ts => Tok.num q :: ts)
    else none

/-- Tokenize a character list, fuel instantiated. -/
def tokenize (cs : List Char) : Option (List Tok) := tokenizeAux cs.length cs

mutual

/-- Additive level of the recursive descent parser (Python + and -). The
Nat argument is fuel on all four parsers. -/
def parseExpr : Nat → List Tok → Option (ℚ × List Tok)
  | 0, _ => none
  | n+1, ts =>
    match parseTerm n ts with
    | none => none
    | some (v, rest) => parseExprTail n v rest

/-- Left-associated chain of + and - after a first term. -/
def parseExprTail : Nat → ℚ → List Tok → Option (ℚ × List Tok)
  | 0, _, _ => none
  | n+1, acc, Tok.plus :: ts =>
    match parseTerm n ts with
    | none => none
    | some (v, rest) => parseExprTail n (acc + v) rest
  | n+1, acc, Tok.minus :: ts =>
    match parseTerm n ts with
    | none => none
    | some (v, rest) => parseExprTail n (acc - v) rest
  | _+1, acc, ts => some (acc, ts)

/-- Multiplicative level (Python * and /, true division, division by zero
raising ZeroDivisionError modelled as failure). -/
def parseTerm : Nat → List Tok → Option (ℚ × List Tok)
  | 0, _ => none
  | n+1, ts =>
    match parseFactor n ts with
    | none => none
    | some (v, rest) => parseTermTail n v rest

/-- Left-associated chain of * and / after a first factor. -/
def parseTermTail : Nat → ℚ → List Tok → Option (ℚ × List Tok)
  | 0, _, _ => none
  | n+1, acc, Tok.star :: ts =>
    match parseFactor n ts with
    | none => none
    | some (v, rest) => parseTermTail n (acc * v) rest
  | n+1, acc, Tok.slash :: ts =>
    match parseFactor n ts with
    | none => none
    | some (v, rest) => if v = 0 then none else parseTermTail n (acc / v) rest
  | _+1, acc, ts => some (acc, ts)

/-- Unary signs, numeric literals and parenthesised expressions. -/
def parseFactor : Nat → List Tok → Option (ℚ × List Tok)
  | 0, _ => none
  | n+1, Tok.plus :: ts => parseFactor n ts
  | n+1, Tok.minus :: ts =>
    match parseFactor n ts with
    | none => none
    | some (v, rest) => some (-v, rest)
  | _+1, Tok.num q :: ts => some (q, ts)
  | n+1, Tok.lparen :: ts =>
    match parseExpr n ts with
    | none => none
    | some (v, Tok.rparen :: rest) => some (v, rest)
    | some _ => none
  | _, _ => none

end

/-- Model of the eval call in calculate_recipe_costs, restricted to pure
arithmetic over numeric literals with + - * / and parentheses (including
unary signs): the fragment the specification allows. Returns none where
eval raises (syntax error, zero division), which the surrounding except
turns into NaN. On a string outside this fragment Python eval executes
arbitrary code; the model returns none there, and the analysis of claim C2
records that the code performs no character filtering before eval. -/
def pyEvalArith (s : String) : Option ℚ :=
  match tokenize s.data with
  | none => none
  | some ts =>
    match parseExpr (3 * ts.length + 3) ts with
    | some (v, []) => some v
    | _ => none

/-- Python str of a cost value as the substitution loop sees it: an
integral float prints with a trailing ".0" (matching str on the float
values the examples use); non-integral rationals, which no theorem
evaluates, print as num/den. -/
def ratRepr (q : ℚ) : String :=
  if q.den = 1 then toString q.num ++ ".0"
  else toString q.num ++ "/" ++ toString q.den

/-- Python str of a possibly-nan cost: float nan prints as "nan". -/
def costStr : Option ℚ → String
  | none => "nan"
  | some q => ratRepr q

/-- The substitution loop of calculate_recipe_costs: for each (var, cost)
pair, in mapping order, formula_eval = formula_eval.replace(var,
str(cost)); each replacement acts on the already substituted string. -/
def substituteAll (formula : String) (vars : List (String × Option ℚ)) : String :=
  vars.foldl (fun acc p => pyReplace acc p.1 (costStr p.2)) formula

/-- Per-dish formula evaluation in calculate_recipe_costs: substitute,
then, when the string contains the marker token nan, make the cost NaN
with no evaluation attempted; otherwise hand the string to eval (any
evaluation failure is caught by the surrounding except and becomes NaN). -/
def evaluateFormula (formula : String) (vars : List (String × Option ℚ)) : Option ℚ :=
  if substrOf "nan" (substituteAll formula vars) then none
  else pyEvalArith (substituteAll formula vars)

/-- The character set the specification requires each formula string to be
filtered against before evaluation. -/
def specSafeChars (s : String) : Bool :=
  s.data.all (fun c => c.isDigit || c ∈ ['.', '+', '-', '*', '/', '(', ')', ' '])

/-- True exactly when calculate_recipe_costs hands the substituted string
to eval: the only guard in the code is the nan substring test; the code
performs no character filtering of any kind. -/
def handedToEval (formula : String) (vars : List (String × Option ℚ)) : Bool :=
  !(substrOf "nan" (substituteAll formula vars))

/-- One row of the dish sheet. -/
structure DishRow where
  dish : String
  recipe_cost : String
  temperature : String
  duration : String
deriving DecidableEq

/-- One row of the dish_ingredient sheet. -/
structure JoinRow where
  dish : String
  ingredient : String
  ingredient_map : String
deriving DecidableEq

/-- cost_lookup = dict(zip(df.ingredient, df.cost)): later duplicate
ingredient ids overwrite earlier ones, as in a Python dict. -/
def buildCostLookup (rows : List (String × ℚ)) : List (String × ℚ) :=
  rows.foldl (fun acc p => dictInsert p.1 p.2 acc) []

/-- The exact ingredient lookup in calculate_recipe_costs: the cost when
the ingredient id is a key of cost_lookup, NaN otherwise. -/
def lookupCost (costL : List (String × ℚ)) (ing : String) : Option ℚ :=
  match costL.find? (fun p => p.1 == ing) with
  | some p => some p.2
  | none => none

/-- The variable-to-cost dict the code builds for one dish: the code fills
a dict of dicts in one pass over the dish_ingredient sheet and then reads
dish_ingredients.get(dish, empty); restricted to one dish that is exactly
the in-order fold of dictInsert over the rows of that dish, which is the
form embedded here. A dish with no rows gets the empty mapping. -/
def dishVariables (join : List JoinRow) (costL : List (String × ℚ)) (d : String) :
    List (String × Option ℚ) :=
  (join.filter (fun r => r.dish == d)).foldl
    (fun acc r => dictInsert r.ingredient_map (lookupCost costL r.ingredient) acc) []

/-- Cost of one dish row. -/
def dishCost (join : List JoinRow) (costRows : List (String × ℚ)) (r : DishRow) : Option ℚ :=
  evaluateFormula r.recipe_cost (dishVariables join (buildCostLookup costRows) r.dish)

/-- RecipeProcessor.calculate_recipe_costs: the recipe_costs dict, one
insertion per dish row in sheet order. -/
def calculate_recipe_costs (dishes : List DishRow) (join : List JoinRow)
    (costRows : List (String × ℚ)) : List (String × Option ℚ) :=
  dishes.foldl (fun acc r => dictInsert r.dish (dishCost join costRows r) acc) []

/-- NaN-propagating float multiplication. -/
def nanMul : Option ℚ → Option ℚ → Option ℚ
  | some a, some b => some (a * b)
  | _, _ => none

/-- Python float greater-than: every comparison involving nan is false. -/
def nanGt : Option ℚ → Option ℚ → Bool
  | some a, some b => decide (b < a)
  | _, _ => false

/-- Python float equality: nan compares equal to nothing, itself
included. -/
def nanEq : Option ℚ → Option ℚ → Bool
  | some a, some b => a == b
  | _, _ => false

/-- Python max over a list of floats: none for the empty list (max raises
ValueError there); otherwise a left fold that keeps the current value
unless a later item compares strictly greater. -/
def pyMax : List (Option ℚ) → Option (Option ℚ)
  | [] => none
  | x :: xs => some (xs.foldl (fun cur item => if nanGt item cur then item else cur) x)

/-- RecipeProcessor.get_temperature: fuzzy match via find_match, then the
truthiness test of the code (if matched_key:) makes both None and the
empty string count as no match, giving NaN; a truthy matched key is by
construction a key of the table and its value is returned. -/
def get_temperature (tl : List (String × ℚ)) (key : String) : Option ℚ :=
  match find_match key tl with
  | some k => if k = "" then none else (tl.find? (fun p => p.1 == k)).map (fun p => p.2)
  | none => none

/-- RecipeProcessor.get_duration_lookup: exact dict access with KeyError
caught and turned into NaN. -/
def get_duration (dl : List (String × ℚ)) (key : String) : Option ℚ :=
  (dl.find? (fun p => p.1 == key)).map (fun p => p.2)

/-- Energy of one dish row: temp_degC * time_mins on floats. -/
def dishEnergy (tl dl : List (String × ℚ)) (r : DishRow) : Option ℚ :=
  nanMul (get_temperature tl r.temperature) (get_duration dl r.duration)

/-- The energies dict of calculate_energy_flags, one insertion per dish
row in sheet order. -/
def calcEnergies (tl dl : List (String × ℚ)) (dishes : List DishRow) :
    List (String × Option ℚ) :=
  dishes.foldl (fun acc r => dictInsert r.dish (dishEnergy tl dl r) acc) []

/-- The aggregation step of calculate_energy_flags: max over the energies
dict values (none models the uncaught ValueError on an empty dish sheet),
then one flag per dish computed as energy == max_energy under float
equality. -/
def calcFlagsFrom (es : List (String × Option ℚ)) : Option (List (String × Bool)) :=
  match pyMax (es.map (fun p => p.2)) with
  | none => none
  | some m => some (es.map (fun p => (p.1, nanEq p.2 m)))

/-- RecipeProcessor.calculate_energy_flags: energies composed with the
aggregation step. -/
def calculate_energy_flags (tl dl : List (String × ℚ)) (dishes : List DishRow) :
    Option (List (String × Bool)) :=
  calcFlagsFrom (calcEnergies tl dl dishes)

/-- The notion the specification describes: the maximum over the defined
energies only, none when every energy is undefined. -/
def maxDefined (l : List (Option ℚ)) : Option ℚ :=
  match l.filterMap id with
  | [] => none
  | a :: as => some (as.foldl max a)

/-- One row of the output table. -/
structure SummaryRow where
  dish : String
  recipe_cash_cost : Option ℚ
  temp_degC : Option ℚ
  time_mins : Option ℚ
  most_energy : Bool
deriving DecidableEq

/-- RecipeProcessor.generate_summary: one output row per dish row, in
sheet order; recipe_costs.get(dish, nan) and most_energy_flags.get(dish,
False) are dict reads with defaults. -/
def generate_summary (tl dl : List (String × ℚ)) (dishes : List DishRow)
    (costs : List (String × Option ℚ)) (flags : List (String × Bool)) : List SummaryRow :=
  dishes.map (fun r =>
    ⟨r.dish,
     ((costs.find? (fun p => p.1 == r.dish)).map (fun p => p.2)).getD none,
     get_temperature tl r.temperature,
     get_duration dl r.duration,
     ((flags.find? (fun p => p.1 == r.dish)).map (fun p => p.2)).getD false⟩)

/-- The pandas round(2) applied to the cost column in save_to_csv; NaN
stays NaN. (Exact ties at the third decimal round half up in this model
where numpy rounds half to even; no theorem evaluates a tie.) -/
def round2 : Option ℚ → Option ℚ
  | none => none
  | some q => some (((round (q * 100) : ℤ) : ℚ) / 100)

/-- CSV cell rendering in save_to_csv: na_rep makes NaN print as the
literal string NaN, never as an empty cell. -/
def renderCell : Option ℚ → String
  | none => "NaN"
  | some q => ratRepr q

/-- The rendered cost cell of save_to_csv: rounded, then rendered. -/
def summaryCsvCostCell (v : Option ℚ) : String := renderCell (round2 v)

/-! Helper lemmas about the dict model, find?, and the Python max fold. -/

/-- Inserting a key that is not present appends the pair at the end. -/
theorem dictInsert_fresh {α : Type} (k : String) (v : α) (d : List (String × α))
    (h : d.any (fun p => p.1 == k) = false) : dictInsert k v d = d ++ [(k, v)] := by
  unfold dictInsert
  rw [if_neg (by simp [h])]

/-- Filling a dict by one insertion per list element, with pairwise
distinct keys none of which is already present, yields the association
list in insertion order. -/
theorem foldl_dictInsert_append {α β : Type} (f : β → String) (g : β → α) :
    ∀ (l : List β) (acc : List (String × α)),
      (l.map f).Nodup →
      (∀ b ∈ l, acc.any (fun q => q.1 == f b) = false) →
      l.foldl (fun a b => dictInsert (f b) (g b) a) acc = acc ++ l.map (fun b => (f b, g b))
  | [], acc => by intro _ _; simp
  | x :: xs, acc => by
    intro hnd hfresh
    have hx := hfresh x (List.mem_cons_self x xs)
    have hnd2 : (xs.map f).Nodup := by
      rw [List.map_cons] at hnd; exact (List.nodup_cons.mp hnd).2
    have hnotmem : f x ∉ xs.map f := by
      rw [List.map_cons] at hnd; exact (List.nodup_cons.mp hnd).1
    have hfresh2 : ∀ b ∈ xs, (acc ++ [(f x, g x)]).any (fun q => q.1 == f b) = false := by
      intro b hb
      rw [List.any_append]
      have h1 := hfresh b (List.mem_cons_of_mem x hb)
      have h2 : (f x == f b) = false :=
        beq_eq_false_iff_ne.mpr (fun he => hnotmem (he ▸ List.mem_map_of_mem f hb))
      simp [h1, h2]
    rw [List.foldl_cons, dictInsert_fresh (f x) (g x) acc hx,
      foldl_dictInsert_append f g xs (acc ++ [(f x, g x)]) hnd2 hfresh2]
    simp

/-- In an association list built from elements with pairwise distinct
keys, lookup of a member element's key finds that element's pair. -/
theorem find?_map_pair_of_nodup {α β : Type} (f : β → String) (g : β → α) :
    ∀ (l : List β), (l.map f).Nodup → ∀ b ∈ l,
      (l.map (fun x => (f x, g x))).find? (fun p => p.1 == f b) = some (f b, g b) := by
  intro l
  induction l with
  | nil => intro _ b hb; cases hb
  | cons x xs ih =>
    intro hnd b hb
    rw [List.map_cons] at hnd
    rcases List.mem_cons.mp hb with rfl | hb2
    · rw [List.map_cons, List.find?_cons_of_pos _ (by simp)]
    · have hne : (f x == f b) = false :=
        beq_eq_false_iff_ne.mpr
          (fun he => (List.nodup_cons.mp hnd).1 (he ▸ List.mem_map_of_mem f hb2))
      rw [List.map_cons, List.find?_cons_of_neg _ (by simp [hne])]
      exact ih (List.nodup_cons.mp hnd).2 b hb2

/-- find? returning some b means b sits at an index before which no
element satisfies the predicate: the first-match characterisation. -/
theorem find?_first {β : Type} (p : β → Bool) :
    ∀ (l : List β) (b : β), l.find? p = some b →
      ∃ i, ∃ hi : i < l.length, l.get ⟨i, hi⟩ = b ∧ p b = true ∧
        ∀ j, ∀ hj : j < l.length, j < i → p (l.get ⟨j, hj⟩) = false := by
  intro l
  induction l with
  | nil => intro b h; simp at h
  | cons x xs ih =>
    intro b h
    by_cases hp : p x = true
    · rw [List.find?_cons_of_pos _ hp] at h
      have hb : x = b := by injection h
      subst hb
      exact ⟨0, by simp, rfl, hp, fun j hj hji => absurd hji (Nat.not_lt_zero j)⟩
    · have hpx : p x = false := by revert hp; cases p x <;> simp
      rw [List.find?_cons_of_neg _ (by simp [hpx])] at h
      obtain ⟨i, hi, hget, hpb, hprev⟩ := ih b h
      refine ⟨i + 1, Nat.succ_lt_succ hi, by simpa using hget, hpb, ?_⟩
      intro j hj hji
      cases j with
      | zero => simpa using hpx
      | succ j2 =>
        have hj2 : j2 < xs.length := Nat.lt_of_succ_lt_succ hj
        have hlt : j2 < i := Nat.lt_of_succ_lt_succ hji
        simpa using hprev j2 hj2 hlt

/-- The Python max fold starting from a defined value computes the
maximum of the defined values, skipping every nan. -/
theorem pyMaxFold_some (vals : List (Option ℚ)) :
    ∀ q : ℚ, vals.foldl (fun cur item => if nanGt item cur then item else cur) (some q)
      = some ((vals.filterMap id).foldl max q) := by
  induction vals with
  | nil => intro q; rfl
  | cons v vs ih =>
    intro q
    cases v with
    | none =>
      rw [List.foldl_cons]
      have hstep : (if nanGt none (some q) then (none : Option ℚ) else some q) = some q := rfl
      rw [hstep, ih q]
      simp [List.filterMap_cons]
    | some b =>
      rw [List.foldl_cons]
      have hstep : (if nanGt (some b) (some q) then some b else some q) = some (max q b) := by
        by_cases hlt : q < b
        · have hg : nanGt (some b) (some q) = true := by simp [nanGt, hlt]
          rw [if_pos (by simp [hg]), max_eq_right hlt.le]
        · have hg : nanGt (some b) (some q) = false := by simp [nanGt, hlt]
          rw [if_neg (by simp [hg]), max_eq_left (le_of_not_lt hlt)]
      rw [hstep, ih (max q b)]
      simp [List.filterMap_cons]

/-- The Python max fold starting from nan stays nan: no later comparison
against nan is ever true. -/
theorem pyMaxFold_none (vals : List (Option ℚ)) :
    vals.foldl (fun cur item => if nanGt item cur then item else cur) none = none := by
  induction vals with
  | nil => rfl
  | cons v vs ih => cases v <;> simpa [nanGt] using ih

/-- Float equality against a defined value coincides with Option
equality. -/
theorem nanEq_some_eq (x : Option ℚ) (m : ℚ) : nanEq x (some m) = (x == some m) := by
  cases x <;> rfl

/-- Float equality against nan is always false. -/
theorem nanEq_none_eq (x : Option ℚ) : nanEq x none = false := by
  cases x <;> rfl

/-- The empty string is a substring of everything. -/
theorem isInfixList_nil (l : List Char) : isInfixList [] l = true := by
  cases l <;> rfl

/-- Unfolding of the aggregation step once the Python max is known. -/
theorem calcFlagsFrom_eq_some (es : List (String × Option ℚ)) (m : Option ℚ)
    (h : pyMax (es.map (fun p => p.2)) = some m) :
    calcFlagsFrom es = some (es.map (fun p => (p.1, nanEq p.2 m))) := by
  unfold calcFlagsFrom
  rw [h]

/-! The claims. -/

/-- C6: when the query key is present verbatim (case-sensitively) as an
entry of the lookup table, find_match returns that key itself immediately,
regardless of any possible substring matches. -/
theorem C6_exact_match_wins {α : Type} (key : String) (lookup : List (String × α))
    (h : lookup.any (fun p => p.1 == key) = true) :
    find_match key lookup = some key := by
  unfold find_match
  rw [if_pos h]

/-- C6 witness: the table of the specification example, where the query
has both an exact match and a proper-substring match. -/
theorem C6_exact_match_wins_witness :
    find_match "X" [("X", (1 : ℚ)), ("XY", (2 : ℚ))] = some "X" :=
  C6_exact_match_wins "X" [("X", (1 : ℚ)), ("XY", (2 : ℚ))] (by decide)

/-- C7: with no exact match, find_match scans the lookup keys in table
order and returns the first key related to the query by the two-way
case-insensitive substring test; it returns none exactly when no key
matches (being a total function, it never raises). -/
theorem C7_first_substring_match {α : Type} (key : String) (lookup : List (String × α))
    (h : lookup.any (fun p => p.1 == key) = false) :
    (∀ k, find_match key lookup = some k →
       ∃ i, ∃ hi : i < lookup.length, (lookup.get ⟨i, hi⟩).1 = k ∧
         substrMatch key k = true ∧
         ∀ j, ∀ hj : j < lookup.length, j < i →
           substrMatch key (lookup.get ⟨j, hj⟩).1 = false) ∧
    (find_match key lookup = none ↔ ∀ p ∈ lookup, substrMatch key p.1 = false) := by
  have hcond : ¬ (lookup.any (fun p => p.1 == key) = true) := by simp [h]
  constructor
  · intro k hk
    unfold find_match at hk
    rw [if_neg hcond] at hk
    cases hfind : lookup.find? (fun p => substrMatch key p.1) with
    | none => rw [hfind] at hk; simp at hk
    | some p =>
      rw [hfind] at hk
      simp only [Option.map_some'] at hk
      obtain ⟨i, hi, hget, hpb, hprev⟩ := find?_first _ lookup p hfind
      have hpk : p.1 = k := Option.some.inj hk
      subst hpk
      exact ⟨i, hi, by rw [hget], hpb, hprev⟩
  · unfold find_match
    rw [if_neg hcond]
    constructor
    · intro hnone p hp
      cases hfind : lookup.find? (fun p => substrMatch key p.1) with
      | some p2 => rw [hfind] at hnone; simp at hnone
      | none =>
        have hnot := List.find?_eq_none.mp hfind p hp
        revert hnot
        cases substrMatch key p.1 <;> simp
    · intro hall
      have hfind : lookup.find? (fun p => substrMatch key p.1) = none :=
        List.find?_eq_none.mpr (fun x hx => by simp [hall x hx])
      rw [hfind]
      rfl

/-- C7 witness: a query unrelated to every key comes back as the sentinel
none. -/
theorem C7_first_substring_match_witness :
    find_match "zzz" [("abc", (1 : ℚ))] = none :=
  (C7_first_substring_match "zzz" [("abc", (1 : ℚ))] (by decide)).2.mpr (by decide)

/-- C10 counterexample: the query a is an exact entry of the table whose
first key is AB; although the lowercase query is contained in the first
key's lowercase form, find_match returns the query itself, not the first
key, refuting the unconditional general clause of the claim. -/
theorem C10_counterexample :
    substrOf (strLower "a") (strLower "AB") = true ∧
    find_match "a" [("AB", (1 : ℚ)), ("a", (2 : ℚ))] = some "a" ∧
    ("a" : String) ≠ "AB" := by decide

/-- C10 (amended): on a non-empty table without the empty string as a key,
the empty query resolves to the first key; more generally any query with
no exact match whose lowercase form is contained in the first key's
lowercase form resolves to that first key. -/
theorem C10_empty_query_first_key {α : Type} (hd : String × α) (rest : List (String × α)) :
    ((hd :: rest).any (fun p => p.1 == "") = false →
       find_match "" (hd :: rest) = some hd.1) ∧
    (∀ q : String, (hd :: rest).any (fun p => p.1 == q) = false →
       substrOf (strLower q) (strLower hd.1) = true →
       find_match q (hd :: rest) = some hd.1) := by
  have main : ∀ q : String, (hd :: rest).any (fun p => p.1 == q) = false →
      substrOf (strLower q) (strLower hd.1) = true →
      find_match q (hd :: rest) = some hd.1 := by
    intro q hq hsub
    unfold find_match
    rw [if_neg (by simp [hq]), List.find?_cons_of_pos _ (by simp [substrMatch, hsub])]
    rfl
  refine ⟨?_, main⟩
  intro hno
  exact main "" hno (isInfixList_nil _)

/-- C10 witness: the empty query against a one-key table gives that first
key, not the sentinel. -/
theorem C10_empty_query_first_key_witness :
    find_match "" [("Hot", (1 : ℚ))] = some "Hot" :=
  (C10_empty_query_first_key ("Hot", (1 : ℚ)) []).1 (by decide)

/-- C2 (code bug): the code hands every substituted string free of the
nan marker straight to Python eval; this formula, made only of characters
outside the safe set the specification requires, reaches eval unfiltered,
where Python executes it as code. -/
theorem C2_no_char_filter :
    handedToEval "len(str())" [] = true ∧ specSafeChars "len(str())" = false := by
  decide

section

attribute [local semireducible] Rat.add Rat.mul Rat.sub Rat.inv Rat.ofScientific

/-- C3 counterexample: variable A carries the undefined-cost marker, yet
the formula (which never mentions A) evaluates to a defined cost: the
claim's condition on the mapping alone does not force Undefined. -/
theorem C3_counterexample :
    (("A", (none : Option ℚ)) ∈ [("A", (none : Option ℚ)), ("B", some (3 : ℚ))]) ∧
    evaluateFormula "B" [("A", (none : Option ℚ)), ("B", some (3 : ℚ))] = some 3 := by
  decide

/-- C3 (amended): when the substituted string contains the undefined
marker token, the result is Undefined and the arithmetic evaluator is
never consulted. -/
theorem C3_nan_marker_undefined (formula : String) (vars : List (String × Option ℚ))
    (h : substrOf "nan" (substituteAll formula vars) = true) :
    evaluateFormula formula vars = none := by
  unfold evaluateFormula
  rw [if_pos h]

/-- C3 witness: a variable with the undefined marker that does occur in
the formula leaves the marker in the substituted string, so the cost is
Undefined. -/
theorem C3_nan_marker_undefined_witness :
    evaluateFormula "A+B" [("A", (none : Option ℚ)), ("B", some (3 : ℚ))] = none :=
  C3_nan_marker_undefined "A+B" [("A", none), ("B", some 3)] (by decide)

/-- C4: substitution is literal textual replacement in mapping order,
each later replacement acting on the already-substituted string; on the
specification's hazard example the process yields the corrupted string
whose evaluation fails, not the algebraic value. -/
theorem C4_textual_substitution :
    (∀ (f v : String) (c : Option ℚ) (vs : List (String × Option ℚ)),
       substituteAll f ((v, c) :: vs) = substituteAll (pyReplace f v (costStr c)) vs) ∧
    substituteAll "AA+A" [("A", some (1 : ℚ)), ("AA", some (2 : ℚ))] = "1.01.0+1.0" ∧
    evaluateFormula "AA+A" [("A", some (1 : ℚ)), ("AA", some (2 : ℚ))] = none :=
  ⟨fun _ _ _ _ => rfl, by decide, by decide⟩

/-- C5: under the spec invariant that dish ids are unique, every dish of
the sheet gets exactly one recipe_costs entry, computed from that dish
alone (so a failure is contained to its dish and the run continues over
the rest), and any failure of the arithmetic evaluation of the
substituted formula makes that entry Undefined rather than a fault. -/
theorem C5_failure_contained (dishes : List DishRow) (join : List JoinRow)
    (costRows : List (String × ℚ)) (hnd : (dishes.map (fun r => r.dish)).Nodup) :
    (calculate_recipe_costs dishes join costRows).length = dishes.length ∧
    (∀ r ∈ dishes,
       (calculate_recipe_costs dishes join costRows).find? (fun p => p.1 == r.dish)
         = some (r.dish, dishCost join costRows r)) ∧
    (∀ r : DishRow,
       pyEvalArith (substituteAll r.recipe_cost
           (dishVariables join (buildCostLookup costRows) r.dish)) = none →
       dishCost join costRows r = none) := by
  have hform : calculate_recipe_costs dishes join costRows
      = dishes.map (fun r => (r.dish, dishCost join costRows r)) := by
    unfold calculate_recipe_costs
    simpa using foldl_dictInsert_append (fun r => r.dish) (dishCost join costRows)
      dishes [] hnd (fun b _ => rfl)
  refine ⟨?_, ?_, ?_⟩
  · rw [hform, List.length_map]
  · intro r hr
    rw [hform]
    exact find?_map_pair_of_nodup (fun r => r.dish) (dishCost join costRows) dishes hnd r hr
  · intro r hfail
    unfold dishCost evaluateFormula
    by_cases hnan : substrOf "nan" (substituteAll r.recipe_cost
        (dishVariables join (buildCostLookup costRows) r.dish)) = true
    · rw [if_pos hnan]
    · rw [if_neg hnan]
      exact hfail

/-- C5 witness: a malformed formula makes its own dish Undefined while
the next dish still evaluates. -/
theorem C5_failure_contained_witness :
    (calculate_recipe_costs [⟨"d1", "(", "t", "u"⟩, ⟨"d2", "1+1", "t", "u"⟩] [] []).find?
        (fun p => p.1 == "d1") = some ("d1", none) ∧
    (calculate_recipe_costs [⟨"d1", "(", "t", "u"⟩, ⟨"d2", "1+1", "t", "u"⟩] [] []).find?
        (fun p => p.1 == "d2") = some ("d2", some 2) := by
  have h := (C5_failure_contained [⟨"d1", "(", "t", "u"⟩, ⟨"d2", "1+1", "t", "u"⟩] [] []
    (by decide)).2.1
  constructor
  · have h1 := h ⟨"d1", "(", "t", "u"⟩ (by decide)
    rw [h1]
    decide
  · have h2 := h ⟨"d2", "1+1", "t", "u"⟩ (by decide)
    rw [h2]
    decide

/-- C8: under the spec invariant that a dish's mapping variables are
pairwise distinct, the dish's variable mapping has one entry per join row
of that dish, whose value is the exact lookup of the row's ingredient in
the cost table; an ingredient absent from the table gives the entry the
Undefined value while the variable stays in the mapping; and a dish with
no join rows gets the empty mapping. -/
theorem C8_variable_mapping (join : List JoinRow) (costRows : List (String × ℚ)) (d : String)
    (hnd : ((join.filter (fun r => r.dish == d)).map (fun r => r.ingredient_map)).Nodup) :
    ((join.filter (fun r => r.dish == d)) = [] →
       dishVariables join (buildCostLookup costRows) d = []) ∧
    (∀ r ∈ join, r.dish = d →
       (dishVariables join (buildCostLookup costRows) d).find?
           (fun p => p.1 == r.ingredient_map)
         = some (r.ingredient_map, lookupCost (buildCostLookup costRows) r.ingredient)) ∧
    (∀ ing : String, (buildCostLookup costRows).find? (fun p => p.1 == ing) = none →
       lookupCost (buildCostLookup costRows) ing = none) := by
  have hform : dishVariables join (buildCostLookup costRows) d
      = (join.filter (fun r => r.dish == d)).map
          (fun r => (r.ingredient_map, lookupCost (buildCostLookup costRows) r.ingredient)) := by
    unfold dishVariables
    simpa using foldl_dictInsert_append (fun r => r.ingredient_map)
      (fun r => lookupCost (buildCostLookup costRows) r.ingredient)
      (join.filter (fun r => r.dish == d)) [] hnd (fun b _ => rfl)
  refine ⟨?_, ?_, ?_⟩
  · intro hempty
    rw [hform, hempty]
    rfl
  · intro r hr hrd
    rw [hform]
    apply find?_map_pair_of_nodup _ _ _ hnd
    rw [List.mem_filter]
    exact ⟨hr, by simp [hrd]⟩
  · intro ing hnone
    unfold lookupCost
    rw [hnone]

/-- C8 witness: an ingredient with a cost and one missing from the cost
table; the missing one keeps its variable, valued Undefined. -/
theorem C8_variable_mapping_witness :
    (dishVariables [⟨"d1", "tomato", "A"⟩, ⟨"d1", "ghost", "B"⟩]
        (buildCostLookup [("tomato", (5 : ℚ))]) "d1").find? (fun p => p.1 == "B")
      = some ("B", none) := by
  have h := (C8_variable_mapping [⟨"d1", "tomato", "A"⟩, ⟨"d1", "ghost", "B"⟩]
      [("tomato", (5 : ℚ))] "d1" (by decide)).2.1 ⟨"d1", "ghost", "B"⟩ (by decide) rfl
  rw [h]
  decide

/-- C9: the summary has exactly one row per dish row, in sheet order,
whatever the lookup results are; Undefined cells render as the literal
string NaN, never blank and never zero. -/
theorem C9_summary_shape (tl dl : List (String × ℚ)) (dishes : List DishRow)
    (costs : List (String × Option ℚ)) (flags : List (String × Bool)) :
    (generate_summary tl dl dishes costs flags).length = dishes.length ∧
    (generate_summary tl dl dishes costs flags).map (fun s => s.dish)
      = dishes.map (fun r => r.dish) ∧
    renderCell none = "NaN" ∧ summaryCsvCostCell none = "NaN" ∧
    ("NaN" : String) ≠ "" ∧ ("NaN" : String) ≠ "0" := by
  refine ⟨?_, ?_, rfl, rfl, by decide, by decide⟩
  · unfold generate_summary
    rw [List.length_map]
  · unfold generate_summary
    rw [List.map_map]
    rfl

/-- C1 (amended): the code takes Python max over all energies, nan
included, where every comparison against nan is false. When the first
dish's energy is defined this equals the maximum of the defined energies
and the flag is true exactly for the dishes whose energy equals it (ties
all flagged, nan dishes never flagged); but when the first dish's energy
is Undefined the max is nan and no dish is flagged, even if later dishes
have defined energies. In particular all-Undefined energies flag no
dish. -/
theorem C1_energy_flags (tl dl : List (String × ℚ)) (d0 : DishRow) (ds : List DishRow)
    (hnd : ((d0 :: ds).map (fun r => r.dish)).Nodup) :
    (∀ q : ℚ, dishEnergy tl dl d0 = some q →
       calculate_energy_flags tl dl (d0 :: ds)
         = some ((d0 :: ds).map (fun r =>
             (r.dish, dishEnergy tl dl r == maxDefined ((d0 :: ds).map (dishEnergy tl dl)))))) ∧
    (dishEnergy tl dl d0 = none →
       calculate_energy_flags tl dl (d0 :: ds)
         = some ((d0 :: ds).map (fun r => (r.dish, false)))) := by
  have hce : calcEnergies tl dl (d0 :: ds)
      = (d0 :: ds).map (fun r => (r.dish, dishEnergy tl dl r)) := by
    unfold calcEnergies
    simpa using foldl_dictInsert_append (fun r => r.dish) (dishEnergy tl dl)
      (d0 :: ds) [] hnd (fun b _ => rfl)
  have hvals : (((d0 :: ds).map (fun r => (r.dish, dishEnergy tl dl r))).map (fun p => p.2))
      = dishEnergy tl dl d0 :: ds.map (dishEnergy tl dl) := by
    simp
  constructor
  · intro q hq
    have hpm : pyMax ((((d0 :: ds).map (fun r => (r.dish, dishEnergy tl dl r))).map
          (fun p => p.2)))
        = some (some (((ds.map (dishEnergy tl dl)).filterMap id).foldl max q)) := by
      rw [hvals, hq]
      simp only [pyMax]
      rw [pyMaxFold_some]
    have hmd : maxDefined ((d0 :: ds).map (dishEnergy tl dl))
        = some (((ds.map (dishEnergy tl dl)).filterMap id).foldl max q) := by
      rw [List.map_cons, hq]
      simp [maxDefined, List.filterMap_cons, id]
    unfold calculate_energy_flags
    rw [hce, calcFlagsFrom_eq_some _ _ hpm]
    congr 1
    rw [List.map_map]
    apply List.map_congr_left
    intro r _
    simp only [Function.comp]
    rw [nanEq_some_eq, hmd]
  · intro hq
    have hpm : pyMax ((((d0 :: ds).map (fun r => (r.dish, dishEnergy tl dl r))).map
          (fun p => p.2)))
        = some none := by
      rw [hvals, hq]
      simp only [pyMax]
      rw [pyMaxFold_none]
    unfold calculate_energy_flags
    rw [hce, calcFlagsFrom_eq_some _ _ hpm]
    congr 1
    rw [List.map_map]
    apply List.map_congr_left
    intro r _
    simp only [Function.comp]
    rw [nanEq_none_eq]

/-- C1 witness: the tie example of the specification, energies 10, 20, 20:
the two maximal dishes are both flagged, the other is not. -/
theorem C1_energy_flags_witness :
    calculate_energy_flags [("t1", (1 : ℚ)), ("t2", (2 : ℚ))] [("u", (10 : ℚ))]
        [⟨"d1", "0", "t1", "u"⟩, ⟨"d2", "0", "t2", "u"⟩, ⟨"d3", "0", "t2", "u"⟩]
      = some [("d1", false), ("d2", true), ("d3", true)] := by
  have h := (C1_energy_flags [("t1", (1 : ℚ)), ("t2", (2 : ℚ))] [("u", (10 : ℚ))]
      ⟨"d1", "0", "t1", "u"⟩ [⟨"d2", "0", "t2", "u"⟩, ⟨"d3", "0", "t2", "u"⟩]
      (by decide)).1 10 (by decide)
  rw [h]
  decide

/-- C1 counterexample: the first dish's energy is Undefined (unmatched
temperature key) and the second is defined with value 200; the claim says
the second dish must be flagged as the unique defined maximum, but the
code computes max as nan and flags no dish at all. -/
theorem C1_counterexample :
    calcEnergies [("hot", (100 : ℚ))] [("short", (2 : ℚ))]
        [⟨"d1", "0", "zz", "short"⟩, ⟨"d2", "0", "hot", "short"⟩]
      = [("d1", none), ("d2", some 200)] ∧
    maxDefined [none, some 200] = some 200 ∧
    calculate_energy_flags [("hot", (100 : ℚ))] [("short", (2 : ℚ))]
        [⟨"d1", "0", "zz", "short"⟩, ⟨"d2", "0", "hot", "short"⟩]
      = some [("d1", false), ("d2", false)] := by
  refine ⟨by decide, by decide, by decide⟩

end

end RecipeProc
